import Mathlib

/-!
Verification of the ap-animelol SEO middleware against its specification.

The development shallowly embeds the TypeScript/JavaScript sources:

* `functions/_middleware.ts` (Cloudflare Pages middleware): `isLikelyBot`,
  `isHtmlRequest`, `isAssetPath`, `routeToSeo`, `getHomepageSeo`,
  `getMovieSeo`, `escapeHtmlAttr`, `buildSeoResponse`, `onRequest`.
* `seo-worker.js` (Cloudflare Worker variant): the inline HTML template.
* `supabase/functions/seo-prerender/index.ts`: `stripHtml`, `truncateText`,
  `replaceSeoVariables` (suffixed `_edge` here).
* `src/lib/api.ts`: `stripHtml`, `truncateText`, `replaceSeoVariables`
  (suffixed `_client` here).

JavaScript strings are modelled as lists of UTF-16 code units (`JStr`),
because `String.prototype.length` / `substring` count code units, which is
load-bearing for the truncation claims.  Asynchronous fetch effects are
modelled by an explicit `World` of outcomes; a rejected promise that is not
caught is modelled by `Except.error`.
-/

set_option maxRecDepth 10000

/-- A JavaScript string: its sequence of UTF-16 code units. -/
abbrev JStr := List Nat

/-- Embed a Lean string literal (all our literals are BMP-only, where code
points and UTF-16 code units coincide) as a `JStr`. -/
def jstr (s : String) : JStr := s.data.map Char.toNat

/-- ASCII lowercasing of one code unit, as used by JavaScript `/i` regex
matching and `toLowerCase` on ASCII. -/
def toLowerN (c : Nat) : Nat := if 65 ≤ c ∧ c ≤ 90 then c + 32 else c

/-- `isPrefixOfJ pat s` : does `s` start with `pat` (exact match)? -/
def isPrefixOfJ : JStr → JStr → Bool
  | [], _ => true
  | _ :: _, [] => false
  | a :: as, b :: bs => a == b && isPrefixOfJ as bs

/-- Case-insensitive (ASCII) prefix test, as done by an `/i` regex. -/
def isPrefixCI : JStr → JStr → Bool
  | [], _ => true
  | _ :: _, [] => false
  | a :: as, b :: bs => toLowerN a == toLowerN b && isPrefixCI as bs

/-- JavaScript `String.prototype.includes`: substring occurrence test. -/
def containsSub (s pat : JStr) : Bool :=
  match s with
  | [] => isPrefixOfJ pat []
  | _ :: rest => isPrefixOfJ pat s || containsSub rest pat

/-- Case-insensitive substring occurrence, as tested by an `/i` regex made
of literal characters. -/
def ciContains (s pat : JStr) : Bool :=
  match s with
  | [] => isPrefixCI pat []
  | _ :: rest => isPrefixCI pat s || ciContains rest pat

/-- Worker loop of `replaceAll`: the `skip` counter carries the number of
already-consumed code units of a match, so the recursion is structural on
the subject string.  Matches are non-overlapping and leftmost, exactly the
semantics of JavaScript `String.prototype.replaceAll` / `replace(/pat/g)`
with a literal pattern. -/
def replaceAllGo (pat repl : JStr) : JStr → Nat → JStr
  | [], _ => []
  | _ :: rest, skip + 1 => replaceAllGo pat repl rest skip
  | c :: rest, 0 =>
    if isPrefixOfJ pat (c :: rest) ∧ pat ≠ [] then
      repl ++ replaceAllGo pat repl rest (pat.length - 1)
    else
      c :: replaceAllGo pat repl rest 0

/-- JavaScript `s.replaceAll(pat, repl)` for a non-empty literal pattern. -/
def replaceAll (pat repl s : JStr) : JStr := replaceAllGo pat repl s 0

/-- ECMA-262 GetSubstitution for a string replacement and a regex with no
capture groups: `$$` (36, 36) yields a dollar, `$&` (36, 38) the matched
text, dollar-backtick (36, 96) the part of the subject before the match,
and dollar-quote (36, 39) the part after it; any other dollar (including
`$n`, since the patterns here have no groups) stays literal. -/
def expandSubst (matched before after : JStr) : JStr → JStr
  | [] => []
  | [c] => [c]
  | c :: d :: rest =>
    if c = 36 then
      if d = 36 then 36 :: expandSubst matched before after rest
      else if d = 38 then matched ++ expandSubst matched before after rest
      else if d = 96 then before ++ expandSubst matched before after rest
      else if d = 39 then after ++ expandSubst matched before after rest
      else c :: expandSubst matched before after (d :: rest)
    else c :: expandSubst matched before after (d :: rest)

/-- Case-insensitive variant: `s.replace(/pat/gi, repl)` for a literal
pattern, with the GetSubstitution dollar escapes applied to the replacement
at each match.  `done` accumulates the already-scanned units of the subject
(the text before the current position, needed by the dollar escapes). -/
def replaceAllCIGo (pat repl : JStr) : JStr → Nat → JStr → JStr
  | [], _, _ => []
  | c :: rest, skip + 1, done => replaceAllCIGo pat repl rest skip (done ++ [c])
  | c :: rest, 0, done =>
    if isPrefixCI pat (c :: rest) ∧ pat ≠ [] then
      expandSubst ((c :: rest).take pat.length) done ((c :: rest).drop pat.length)
          repl ++
        replaceAllCIGo pat repl rest (pat.length - 1) (done ++ [c])
    else
      c :: replaceAllCIGo pat repl rest 0 (done ++ [c])

/-- JavaScript `s.replace(/pat/gi, repl)` for a non-empty literal pattern
and a string replacement (so the dollar escapes of GetSubstitution apply). -/
def replaceAllCI (pat repl s : JStr) : JStr := replaceAllCIGo pat repl s 0 []

/-- The code units matched by the JavaScript regex class `\s` (and stripped
by `String.prototype.trim`). -/
def isWs (c : Nat) : Bool :=
  c == 9 || c == 10 || c == 11 || c == 12 || c == 13 || c == 32 ||
  c == 160 || c == 5760 || (8192 ≤ c && c ≤ 8202) || c == 8232 ||
  c == 8233 || c == 8239 || c == 8287 || c == 12288 || c == 65279

/-- Worker loop of `collapseWs`; the flag records whether the previous kept
unit came from a whitespace run. -/
def collapseWsGo : JStr → Bool → JStr
  | [], _ => []
  | c :: rest, prevWs =>
    if isWs c then
      if prevWs then collapseWsGo rest true else 32 :: collapseWsGo rest true
    else
      c :: collapseWsGo rest false

/-- JavaScript `s.replace(/\s+/g, " ")`: each maximal whitespace run becomes
one space. -/
def collapseWs (s : JStr) : JStr := collapseWsGo s false

/-- JavaScript `String.prototype.trim`. -/
def jsTrim (s : JStr) : JStr :=
  ((s.dropWhile (fun c => isWs c)).reverse.dropWhile (fun c => isWs c)).reverse

/-- JavaScript truthiness coercion `x || ""` for a nullable string. -/
def jsGetD (o : Option JStr) : JStr := o.getD []

/-- JavaScript `a || b` on strings (empty string is falsy). -/
def jsOrStr (a b : JStr) : JStr := if a = [] then b else a

/-- Worker loop of the tag stripper, the `replace(/<[^>]*>/g, "")` pass of the code.
The flag means "currently inside a tag that is known to close".  A `<` opens
a tag only when a `>` occurs later (otherwise the regex has no match there
and the `<` is kept), which is exactly leftmost-first global matching of
this pattern. -/
def stripTagsGo : JStr → Bool → JStr
  | [], _ => []
  | c :: rest, true =>
    if c = 62 then stripTagsGo rest false else stripTagsGo rest true
  | c :: rest, false =>
    if c = 60 ∧ rest.any (fun x => x == 62) then stripTagsGo rest true
    else c :: stripTagsGo rest false

/-- JavaScript `s.replace(/<[^>]*>/g, "")`. -/
def stripTags (s : JStr) : JStr := stripTagsGo s false

/-- `stripHtml` from `src/lib/api.ts`:
`html.replace(/<[^>]*>/g, "").replace(/&nbsp;/g, " ").trim()`, with the
`if (!html) return ""` guard. -/
def stripHtml_client (html : JStr) : JStr :=
  if html = [] then []
  else jsTrim (replaceAll (jstr "&nbsp;") (jstr " ") (stripTags html))

/-- `stripHtml` from `supabase/functions/seo-prerender/index.ts`:
`html.replace(/<[^>]*>/g, "").replace(/\s+/g, " ").trim()`. -/
def stripHtml_edge (html : JStr) : JStr :=
  jsTrim (collapseWs (stripTags html))

/-- `truncateText` from `src/lib/api.ts`:
`if (!text || text.length <= maxLength) return text;`
`return text.substring(0, maxLength - 3).trim() + "...";`
(`substring` clamps a negative end index to 0, which `Nat` subtraction
mirrors). -/
def truncateText_client (text : JStr) (maxLength : Nat) : JStr :=
  if text = [] ∨ text.length ≤ maxLength then text
  else jsTrim (text.take (maxLength - 3)) ++ jstr "..."

/-- `truncateText` from `supabase/functions/seo-prerender/index.ts`:
`if (!text) return "";`
`const stripped = stripHtml(text);`
`if (stripped.length <= maxLength) return stripped;`
`return stripped.substring(0, maxLength - 3) + "...";` -/
def truncateText_edge (text : JStr) (maxLength : Nat) : JStr :=
  if text = [] then []
  else
    let stripped := stripHtml_edge text
    if stripped.length ≤ maxLength then stripped
    else stripped.take (maxLength - 3) ++ jstr "..."

/-- The variable mapping consumed by both `replaceSeoVariables`
implementations (`SeoVariables` in `src/lib/api.ts`; a plain record in the
edge function).  A numeric `nam` (year) is modelled by its decimal string;
an absent or null field is `none`. -/
structure Vars where
  sitename : Option JStr := none
  phim : Option JStr := none
  phimgoc : Option JStr := none
  theloai : Option JStr := none
  quocgia : Option JStr := none
  nam : Option JStr := none
  tag : Option JStr := none
  dienvien : Option JStr := none
  daodien : Option JStr := none
  tap : Option JStr := none
  chatluong : Option JStr := none
  ngonngu : Option JStr := none
  noidung : Option JStr := none
  thumb : Option JStr := none
deriving DecidableEq

/-- `replaceSeoVariables` from `src/lib/api.ts`: fourteen case-insensitive
global replacements in source order, then `replace(/\s+/g, " ").trim()`.
`%noidung%` is replaced by `stripHtml(noidung)` when truthy. -/
def replaceSeoVariables_client (template : Option JStr) (v : Vars) : JStr :=
  if jsGetD template = [] then []
  else
    let r := jsGetD template
    let r := replaceAllCI (jstr "%sitename%") (jsGetD v.sitename) r
    let r := replaceAllCI (jstr "%phim%") (jsGetD v.phim) r
    let r := replaceAllCI (jstr "%phimgoc%") (jsGetD v.phimgoc) r
    let r := replaceAllCI (jstr "%theloai%") (jsGetD v.theloai) r
    let r := replaceAllCI (jstr "%quocgia%") (jsGetD v.quocgia) r
    let r := replaceAllCI (jstr "%nam%") (jsGetD v.nam) r
    let r := replaceAllCI (jstr "%tag%") (jsGetD v.tag) r
    let r := replaceAllCI (jstr "%dienvien%") (jsGetD v.dienvien) r
    let r := replaceAllCI (jstr "%daodien%") (jsGetD v.daodien) r
    let r := replaceAllCI (jstr "%tap%") (jsGetD v.tap) r
    let r := replaceAllCI (jstr "%chatluong%") (jsGetD v.chatluong) r
    let r := replaceAllCI (jstr "%ngonngu%") (jsGetD v.ngonngu) r
    let r := replaceAllCI (jstr "%noidung%")
      (if jsGetD v.noidung = [] then [] else stripHtml_client (jsGetD v.noidung)) r
    let r := replaceAllCI (jstr "%thumb%") (jsGetD v.thumb) r
    jsTrim (collapseWs r)

/-- `replaceSeoVariables` from `supabase/functions/seo-prerender/index.ts`:
twelve case-insensitive global replacements in source order (there is no
`%tag%` and no `%thumb%` pass), then `replace(/\s+/g, " ").trim()`. -/
def replaceSeoVariables_edge (template : Option JStr) (v : Vars) : JStr :=
  if jsGetD template = [] then []
  else
    let r := jsGetD template
    let r := replaceAllCI (jstr "%sitename%") (jsGetD v.sitename) r
    let r := replaceAllCI (jstr "%phim%") (jsGetD v.phim) r
    let r := replaceAllCI (jstr "%phimgoc%") (jsGetD v.phimgoc) r
    let r := replaceAllCI (jstr "%theloai%") (jsGetD v.theloai) r
    let r := replaceAllCI (jstr "%quocgia%") (jsGetD v.quocgia) r
    let r := replaceAllCI (jstr "%nam%") (jsGetD v.nam) r
    let r := replaceAllCI (jstr "%tap%") (jsGetD v.tap) r
    let r := replaceAllCI (jstr "%chatluong%") (jsGetD v.chatluong) r
    let r := replaceAllCI (jstr "%ngonngu%") (jsGetD v.ngonngu) r
    let r := replaceAllCI (jstr "%noidung%") (stripHtml_edge (jsGetD v.noidung)) r
    let r := replaceAllCI (jstr "%dienvien%") (jsGetD v.dienvien) r
    let r := replaceAllCI (jstr "%daodien%") (jsGetD v.daodien) r
    jsTrim (collapseWs r)

/-- Validity of a UTF-16 code-unit sequence: every high surrogate is
immediately followed by a low surrogate, and no low surrogate appears
unpaired.  Used to state that truncation can split a surrogate pair. -/
def isValidUtf16 : JStr → Bool
  | [] => true
  | c :: rest =>
    if 55296 ≤ c ∧ c ≤ 56319 then
      match rest with
      | [] => false
      | d :: rest' => if 56320 ≤ d ∧ d ≤ 57343 then isValidUtf16 rest' else false
    else if 56320 ≤ c ∧ c ≤ 57343 then false
    else isValidUtf16 rest

/-- `escapeHtmlAttr` from `_middleware.ts`: the four chained `replaceAll`
passes, innermost (`&`) first. -/
def escapeHtmlAttr (value : JStr) : JStr :=
  replaceAll (jstr ">") (jstr "&gt;")
    (replaceAll (jstr "<") (jstr "&lt;")
      (replaceAll (jstr "\"") (jstr "&quot;")
        (replaceAll (jstr "&") (jstr "&amp;") value)))

/-- The HTML document built inline by `seo-worker.js` for a matched movie
route: the template literal with `seoData.title`, `seoData.description`,
`url.href` and `slug` interpolated, using the `||` fallbacks of the source.  The
interpolations are written into the output verbatim. -/
def workerHtml (title description : Option JStr) (urlHref slug : JStr) : JStr :=
  let t := jsOrStr (jsGetD title) (jstr "Xem phim online - AnimeLoL")
  let d := jsOrStr (jsGetD description) (jstr "Xem phim online chất lượng cao")
  jstr "\n<!DOCTYPE html>\n<html lang=\"vi\">\n<head>\n  <meta charset=\"UTF-8\">\n  <meta name=\"viewport\" content=\"width=device-width, initial-scale=1.0\">\n  <title>" ++
  t ++
  jstr "</title>\n  <meta name=\"description\" content=\"" ++
  d ++
  jstr "\">\n  <meta property=\"og:title\" content=\"" ++
  t ++
  jstr "\">\n  <meta property=\"og:description\" content=\"" ++
  d ++
  jstr "\">\n  <meta property=\"og:url\" content=\"" ++
  urlHref ++
  jstr "\">\n  <meta property=\"og:type\" content=\"video.movie\">\n  <meta name=\"twitter:title\" content=\"" ++
  t ++
  jstr "\">\n  <meta name=\"twitter:description\" content=\"" ++
  d ++
  jstr "\">\n</head>\n<body>\n  <h1>SEO Worker Working!</h1>\n  <p>Slug: " ++
  slug ++
  jstr "</p>\n  <p>Title: " ++
  jsOrStr (jsGetD title) (jstr "N/A") ++
  jstr "</p>\n  <p>Description: " ++
  jsOrStr (jsGetD description) (jstr "N/A") ++
  jstr "</p>\n</body>\n</html>"

/-- The literal alternatives of `BOT_UA_REGEX` in `_middleware.ts`. -/
def botSignatures : List JStr :=
  [jstr "googlebot", jstr "bingbot", jstr "yandex", jstr "duckduckbot",
   jstr "baiduspider", jstr "slurp", jstr "twitterbot",
   jstr "facebookexternalhit", jstr "facebot", jstr "linkedinbot",
   jstr "telegrambot", jstr "whatsapp", jstr "discordbot", jstr "slackbot",
   jstr "pinterest", jstr "embedly", jstr "quora link preview",
   jstr "kakaotalk", jstr "naver", jstr "applebot"]

/-- An inbound request, with the headers the middleware reads.  `none`
models an absent header (`headers.get` returning null). -/
structure Req where
  method : JStr
  accept : Option JStr := none
  ua : Option JStr := none
  purpose : Option JStr := none
  secPurpose : Option JStr := none
  path : JStr := jstr "/"
  origin : JStr := jstr "https://example.com"

/-- `isLikelyBot` from `_middleware.ts`: `BOT_UA_REGEX.test(ua)` (a
case-insensitive alternation of the literal signatures), then the
`purpose`/`sec-purpose` prefetch heuristic. -/
def isLikelyBot (req : Req) : Bool :=
  let ua := jsGetD req.ua
  if botSignatures.any (fun sig => ciContains ua sig) then true
  else
    let purpose := jsOrStr (jsGetD req.purpose) (jsGetD req.secPurpose)
    if ciContains purpose (jstr "prefetch") then true else false

/-- `isHtmlRequest` from `_middleware.ts`:
`(headers.get("accept") || "").includes("text/html")`. -/
def isHtmlRequest (req : Req) : Bool :=
  containsSub (jsGetD req.accept) (jstr "text/html")

/-- The extensions of the asset regex in `_middleware.ts`, each with its
leading dot (`woff2?` contributes both `woff` and `woff2`). -/
def assetExts : List JStr :=
  [jstr ".js", jstr ".css", jstr ".png", jstr ".jpg", jstr ".jpeg",
   jstr ".webp", jstr ".gif", jstr ".svg", jstr ".ico", jstr ".woff",
   jstr ".woff2", jstr ".ttf", jstr ".eot", jstr ".map", jstr ".json",
   jstr ".txt", jstr ".xml"]

/-- Does `s` end with `suffix`? -/
def endsWithJ (s suffix : JStr) : Bool := isPrefixOfJ suffix.reverse s.reverse

/-- `isAssetPath` from `_middleware.ts`: the anchored case-insensitive
extension regex `\.(?:js|css|...|xml)$`. -/
def isAssetPath (pathname : JStr) : Bool :=
  assetExts.any (fun e => endsWithJ (pathname.map toLowerN) e)

/-- The movie route matcher of `routeToSeo`:
`path.match(/^\/phim\/([^\/]+)(?:\/)?$/i)`, returning the captured slug. -/
def matchMovie (path : JStr) : Option JStr :=
  if (path.take 6).map toLowerN = jstr "/phim/" then
    let r := path.drop 6
    let r' := if r.getLast? = some 47 then r.dropLast else r
    if r' ≠ [] ∧ r'.all (fun c => decide (c ≠ 47)) then some r' else none
  else none

/-- The route descriptors of the classify operation in the spec. -/
inductive RouteClass where
  | homepage
  | movieDetail (slug : JStr)
  | unhandled
deriving DecidableEq

/-- Route classification as composed by the code: `onRequest` short-circuits
asset paths before ever calling `routeToSeo`, and `routeToSeo` dispatches on
the homepage paths and the movie regex, defaulting to a null resolver
(passthrough). -/
def classify (path : JStr) : RouteClass :=
  if isAssetPath path then .unhandled
  else if path = jstr "/" ∨ path = jstr "/index.html" then .homepage
  else
    match matchMovie path with
    | some slug => .movieDetail slug
    | none => .unhandled

/-- `SeoPayload` from `_middleware.ts`. -/
structure SeoPayload where
  title : JStr
  description : JStr
  keywords : JStr
  image : Option JStr := none
  canonicalUrl : Option JStr := none
  siteName : Option JStr := none
  type : Option JStr := none
deriving DecidableEq

/-- An HTTP response, restricted to the parts the middleware reads or
writes: status, the `Content-Type`, `Cache-Control` and `Vary` headers, and
the body bytes. -/
structure Resp where
  status : Nat := 200
  contentType : Option JStr := none
  cacheControl : Option JStr := none
  vary : Option JStr := none
  body : JStr := []
deriving DecidableEq

/-- Outcome of one `await fetch(...)` call: the promise rejects (network
failure / timeout), resolves with a non-ok status, or resolves ok with a
decoded value. -/
inductive FetchOutcome (α : Type) where
  | reject
  | notOk
  | ok (a : α)

/-- The environment of one request: what `context.next()` returns, whether
`caches.default` exists and what it holds, the Supabase configuration, the
outcome of each upstream fetch, and the (runtime-provided) `HTMLRewriter`
transformation, abstracted as a function from payload and body to body. -/
structure World where
  originResp : Resp
  cachePresent : Bool := false
  cached : Option Resp := none
  envUrl : Option JStr := none
  envKey : Option JStr := none
  seoRows : FetchOutcome (List (JStr × JStr)) := .notOk
  siteRows : FetchOutcome (List (JStr × JStr)) := .notOk
  movieSeo : FetchOutcome SeoPayload := .notOk
  rw : SeoPayload → JStr → JStr := fun _ b => b

/-- `fetchKvTable` from `_middleware.ts`: returns `{}` when the Supabase
env is missing or the response is not ok; keeps only rows with truthy key
and value; an uncaught fetch rejection propagates (`Except.error`). -/
def fetchKvTable (w : World) (rows : FetchOutcome (List (JStr × JStr))) :
    Except Unit (List (JStr × JStr)) :=
  if jsGetD w.envUrl = [] ∨ jsGetD w.envKey = [] then .ok []
  else
    match rows with
    | .reject => .error ()
    | .notOk => .ok []
    | .ok rs => .ok (rs.filter (fun p => !p.1.isEmpty && !p.2.isEmpty))

/-- Lookup in the key/value record built by `fetchKvTable`; later rows
overwrite earlier ones, and a missing key is falsy (empty). -/
def kvGet (m : List (JStr × JStr)) (k : JStr) : JStr :=
  (m.foldl (fun acc p => if p.1 = k then some p.2 else acc) none).getD []

/-- `getHomepageSeo` from `_middleware.ts`.  `Promise.all` rejects when
either `fetchKvTable` call rejects, which the sequential binds mirror. -/
def getHomepageSeo (path origin : JStr) (w : World) :
    Except Unit (Option SeoPayload) :=
  match fetchKvTable w w.seoRows with
  | .error e => .error e
  | .ok seo =>
    match fetchKvTable w w.siteRows with
    | .error e => .error e
    | .ok site =>
      let siteName := jsOrStr (kvGet seo (jstr "site_name"))
        (jsOrStr (kvGet site (jstr "site_name")) (jstr "PhimHD"))
      let titleBase := jsOrStr (kvGet seo (jstr "homepage_title"))
        (jstr "Xem phim online miễn phí chất lượng cao")
      let title := if containsSub titleBase siteName then titleBase
        else titleBase ++ jstr " - " ++ siteName
      let description := jsOrStr (kvGet seo (jstr "homepage_description"))
        (jsOrStr (kvGet seo (jstr "site_description"))
          (jstr "Xem phim online chất lượng cao tại " ++ siteName))
      let keywords := kvGet seo (jstr "site_keywords")
      let image := jsOrStr (kvGet seo (jstr "og_image")) (jstr "/icon-512.svg")
      .ok (some
        { title := title
          description := description
          keywords := keywords
          image := some image
          canonicalUrl := some (origin ++ path)
          siteName := some siteName
          type := some (jstr "website") })

/-- `getMovieSeo` from `_middleware.ts`: null when the Supabase env is
missing or the fetch is not ok; a rejected fetch propagates; a falsy
`canonicalUrl` in the payload is replaced by the `/phim/slug` fallback. -/
def getMovieSeo (slug origin : JStr) (w : World) :
    Except Unit (Option SeoPayload) :=
  if jsGetD w.envUrl = [] ∨ jsGetD w.envKey = [] then .ok none
  else
    match w.movieSeo with
    | .reject => .error ()
    | .notOk => .ok none
    | .ok d =>
      .ok (some
        (if jsGetD d.canonicalUrl = [] then
          { d with canonicalUrl := some (origin ++ jstr "/phim/" ++ slug) }
        else d))

/-- `routeToSeo` from `_middleware.ts`. -/
def routeToSeo (path origin : JStr) (w : World) :
    Except Unit (Option SeoPayload) :=
  if path = jstr "/" ∨ path = jstr "/index.html" then
    getHomepageSeo path origin w
  else
    match matchMovie path with
    | some slug => getMovieSeo slug origin w
    | none => .ok none

/-- `buildSeoResponse` from `_middleware.ts`: the origin response is
returned untouched unless its `Content-Type` contains `text/html`; otherwise
the body goes through the `HTMLRewriter` pipeline (abstracted as `rw`) and
the bot caching headers are set. -/
def buildSeoResponse (rw : SeoPayload → JStr → JStr) (origin : Resp)
    (seo : SeoPayload) : Resp :=
  if containsSub (jsGetD origin.contentType) (jstr "text/html") = false then
    origin
  else
    { origin with
      body := rw seo origin.body
      cacheControl := some (jstr "public, max-age=300")
      vary := some (jstr "User-Agent") }

/-- The observable effects performed by `onRequest`, in order. -/
inductive Eff where
  | next
  | cacheLookup
  | resolve
  | cachePut (r : Resp)
deriving DecidableEq

/-- Tail of `onRequest` after the cache lookup has missed (or the cache was
absent): resolve, then passthrough-and-cache or rewrite-and-cache. -/
def onRequestAfterCache (req : Req) (w : World) (pre : List Eff)
    (cachePresent : Bool) : Except Unit (Resp × List Eff) :=
  match routeToSeo req.path req.origin w with
  | .error e => .error e
  | .ok none =>
    .ok (w.originResp,
      pre ++ [Eff.resolve, Eff.next] ++
        (if cachePresent then [Eff.cachePut w.originResp] else []))
  | .ok (some seo) =>
    let out := buildSeoResponse w.rw w.originResp seo
    .ok (out,
      pre ++ [Eff.resolve, Eff.next] ++
        (if cachePresent then [Eff.cachePut out] else []))

/-- `onRequest` from `_middleware.ts`: the GET/HEAD, Accept, asset and bot
gates each return `context.next()` directly; then cache lookup, resolution
via `routeToSeo` (whose uncaught rejection propagates out of the middleware
— there is no try/catch), and passthrough or rewrite, each written to the
cache when `caches.default` exists. -/
def onRequest (req : Req) (w : World) : Except Unit (Resp × List Eff) :=
  if ¬(req.method = jstr "GET" ∨ req.method = jstr "HEAD") then
    .ok (w.originResp, [Eff.next])
  else if ¬ isHtmlRequest req then .ok (w.originResp, [Eff.next])
  else if isAssetPath req.path then .ok (w.originResp, [Eff.next])
  else if ¬ isLikelyBot req then .ok (w.originResp, [Eff.next])
  else
    match w.cachePresent, w.cached with
    | true, some c => .ok (c, [Eff.cacheLookup])
    | true, none => onRequestAfterCache req w [Eff.cacheLookup] true
    | false, _ => onRequestAfterCache req w [] false

theorem jstr_dots : jstr "..." = [46, 46, 46] := rfl

theorem length_dropWhileJ_le (p : Nat → Bool) (l : JStr) :
    (l.dropWhile p).length ≤ l.length := by
  induction l with
  | nil => simp
  | cons a t ih =>
    by_cases h : p a <;> simp [List.dropWhile_cons, h] <;> omega

theorem jsTrim_length_le (s : JStr) : (jsTrim s).length ≤ s.length := by
  unfold jsTrim
  calc ((s.dropWhile (fun c => isWs c)).reverse.dropWhile
          (fun c => isWs c)).reverse.length
      = ((s.dropWhile (fun c => isWs c)).reverse.dropWhile
          (fun c => isWs c)).length := by rw [List.length_reverse]
    _ ≤ (s.dropWhile (fun c => isWs c)).reverse.length :=
        length_dropWhileJ_le _ _
    _ = (s.dropWhile (fun c => isWs c)).length := by rw [List.length_reverse]
    _ ≤ s.length := length_dropWhileJ_le _ _

theorem jsTrim_nil : jsTrim [] = [] := rfl

theorem truncateText_client_idem (s : JStr) (n : Nat) :
    truncateText_client (truncateText_client s n) n = truncateText_client s n := by
  unfold truncateText_client
  by_cases h : s = [] ∨ s.length ≤ n
  · simp only [if_pos h, if_pos h]
  · simp only [if_neg h]
    rcases Nat.lt_or_ge n 3 with h3 | h3
    · have hn0 : n - 3 = 0 := by omega
      simp only [hn0, List.take_zero, jsTrim_nil, List.nil_append, jstr_dots]
      simp
    · have hlen : (jsTrim (s.take (n - 3)) ++ jstr "...").length ≤ n := by
        rw [List.length_append, jstr_dots]
        have h1 := jsTrim_length_le (s.take (n - 3))
        have h2 : (s.take (n - 3)).length ≤ n - 3 := by
          rw [List.length_take]; omega
        simp only [List.length_cons, List.length_nil]
        omega
      rw [if_pos (Or.inr hlen)]

theorem truncateText_edge_length_le (s : JStr) (n : Nat) :
    (truncateText_edge s n).length ≤ max n 3 := by
  unfold truncateText_edge
  by_cases h : s = []
  · simp [h]
  · simp only [if_neg h]
    by_cases h2 : (stripHtml_edge s).length ≤ n
    · simp only [if_pos h2]; omega
    · simp only [if_neg h2, List.length_append, List.length_take, jstr_dots]
      simp only [List.length_cons, List.length_nil]
      omega

/-- C5 counterexample: `truncateText` is not the claimed operation.  The
client implementation cuts on UTF-16 code units, so truncating
`"😀😀a"` (five code units) to 4 keeps a lone high surrogate (55357) —
it splits a multibyte code point; and the edge implementation does not
return a short input unchanged: it first collapses whitespace, so
`truncateText("a  b", 10)` is `"a b"`, not `"a  b"`. -/
theorem C5_counterexample :
    truncateText_client [55357, 56832, 55357, 56832, 97] 4 = [55357, 46, 46, 46] ∧
    isValidUtf16 [55357, 56832, 55357, 56832, 97] = true ∧
    isValidUtf16 (truncateText_client [55357, 56832, 55357, 56832, 97] 4) = false ∧
    truncateText_edge (jstr "a  b") 10 = jstr "a b" ∧
    jstr "a  b" ≠ jstr "a b" := by
  refine ⟨by decide, by decide, by decide, by decide, by decide⟩

/-- C5 (amended): cutting happens on UTF-16 code-unit boundaries (not
character boundaries, so a surrogate pair can be split), and the edge
implementation strips markup/whitespace even from short inputs.  What does
hold: the client `truncateText` is idempotent —
`truncate(truncate(s, n), n) = truncate(s, n)` for all `s`, `n` — and the
edge `truncateText` never returns more than `max n 3` code units. -/
theorem C5_truncate_amended :
    (∀ (s : JStr) (n : Nat),
      truncateText_client (truncateText_client s n) n = truncateText_client s n) ∧
    (∀ (s : JStr) (n : Nat), (truncateText_edge s n).length ≤ max n 3) :=
  ⟨truncateText_client_idem, truncateText_edge_length_le⟩

/-- Is there a `<` with some `>` after it?  When this is false, the string
cannot contain an HTML tag (in the sense of the `/<[^>]*>/` pattern both
`stripHtml` implementations remove). -/
def afterLtHasGt : JStr → Bool
  | [] => false
  | c :: rest => (c == 60 && rest.any (fun x => x == 62)) || afterLtHasGt rest

theorem mem_stripTagsGo {a : Nat} :
    ∀ (s : JStr) (b : Bool), a ∈ stripTagsGo s b → a ∈ s := by
  intro s
  induction s with
  | nil => intro b h; cases h
  | cons c rest ih =>
    intro b h
    cases b with
    | true =>
      rw [stripTagsGo] at h
      by_cases hc : c = 62
      · rw [if_pos hc] at h
        exact List.mem_cons_of_mem _ (ih _ h)
      · rw [if_neg hc] at h
        exact List.mem_cons_of_mem _ (ih _ h)
    | false =>
      rw [stripTagsGo] at h
      by_cases hc : c = 60 ∧ rest.any (fun x => x == 62)
      · rw [if_pos hc] at h
        exact List.mem_cons_of_mem _ (ih _ h)
      · rw [if_neg hc] at h
        rcases List.mem_cons.mp h with h1 | h1
        · exact h1 ▸ List.mem_cons_self _ _
        · exact List.mem_cons_of_mem _ (ih _ h1)

theorem afterLtHasGt_stripTagsGo :
    ∀ (s : JStr) (b : Bool), afterLtHasGt (stripTagsGo s b) = false := by
  intro s
  induction s with
  | nil => intro b; rfl
  | cons c rest ih =>
    intro b
    cases b with
    | true =>
      rw [stripTagsGo]
      by_cases hc : c = 62
      · rw [if_pos hc]; exact ih _
      · rw [if_neg hc]; exact ih _
    | false =>
      rw [stripTagsGo]
      by_cases hc : c = 60 ∧ rest.any (fun x => x == 62)
      · rw [if_pos hc]; exact ih _
      · rw [if_neg hc]
        rw [afterLtHasGt]
        rw [ih false, Bool.or_false]
        by_cases h60 : c = 60
        · have hany : rest.any (fun x => x == 62) = false := by
            by_contra hx
            exact hc ⟨h60, Bool.of_not_eq_false hx⟩
          have : (stripTagsGo rest false).any (fun x => x == 62) = false := by
            by_contra hx
            have hx' := Bool.of_not_eq_false hx
            rcases List.any_eq_true.mp hx' with ⟨x, hmem, hx62⟩
            have : x ∈ rest := mem_stripTagsGo rest false hmem
            have : rest.any (fun x => x == 62) = true :=
              List.any_eq_true.mpr ⟨x, this, hx62⟩
            rw [hany] at this
            cases this
          rw [this, Bool.and_false]
        · have : (c == 60) = false := by
            exact decide_eq_false h60
          rw [this, Bool.false_and]

/-- The tag-free guarantee for `stripTags`, the shared core of both
`stripHtml` implementations: its output never contains a `<` with a later
`>`. -/
theorem afterLtHasGt_stripTags (s : JStr) : afterLtHasGt (stripTags s) = false :=
  afterLtHasGt_stripTagsGo s false

/-- C8 counterexample: the edge `stripHtml` does not decode `&nbsp;` — on
`"a&nbsp;b"` it returns the input with the entity still encoded, while the
client `stripHtml` decodes it to a space. -/
theorem C8_counterexample :
    stripHtml_edge (jstr "a&nbsp;b") = jstr "a&nbsp;b" ∧
    stripHtml_client (jstr "a&nbsp;b") = jstr "a b" ∧
    jstr "a&nbsp;b" ≠ jstr "a b" := by
  refine ⟨by decide, by decide, by decide⟩

/-- C8 (amended): both `stripHtml` implementations remove HTML tags (their
shared `/<[^>]*>/g` pass leaves no `<` with a later `>`, so no parseable tag
remains), but only the client implementation decodes the `&nbsp;` entity to
a space; the edge implementation collapses whitespace runs and trims, and
leaves `&nbsp;` encoded. -/
theorem C8_stripHtml_amended :
    (∀ s : JStr, afterLtHasGt (stripTags s) = false) ∧
    stripHtml_client (jstr "x<b>y</b>&nbsp;z") = jstr "xy z" ∧
    stripHtml_edge (jstr "x<b>y</b>&nbsp;z") = jstr "xy&nbsp;z" :=
  ⟨afterLtHasGt_stripTags, by decide, by decide⟩

theorem mem_replaceAllGo {a : Nat} {pat repl : JStr} :
    ∀ (s : JStr) (k : Nat), a ∈ replaceAllGo pat repl s k → a ∈ repl ∨ a ∈ s := by
  intro s
  induction s with
  | nil => intro k h; cases h
  | cons c rest ih =>
    intro k h
    match k with
    | k' + 1 =>
      rw [replaceAllGo] at h
      rcases ih k' h with h1 | h1
      · exact Or.inl h1
      · exact Or.inr (List.mem_cons_of_mem _ h1)
    | 0 =>
      rw [replaceAllGo] at h
      by_cases hp : isPrefixOfJ pat (c :: rest) ∧ pat ≠ []
      · rw [if_pos hp] at h
        rcases List.mem_append.mp h with h1 | h1
        · exact Or.inl h1
        · rcases ih _ h1 with h2 | h2
          · exact Or.inl h2
          · exact Or.inr (List.mem_cons_of_mem _ h2)
      · rw [if_neg hp] at h
        rcases List.mem_cons.mp h with h1 | h1
        · exact Or.inr (h1 ▸ List.mem_cons_self _ _)
        · rcases ih _ h1 with h2 | h2
          · exact Or.inl h2
          · exact Or.inr (List.mem_cons_of_mem _ h2)

theorem mem_replaceAll {a : Nat} {pat repl s : JStr} :
    a ∈ replaceAll pat repl s → a ∈ repl ∨ a ∈ s :=
  fun h => mem_replaceAllGo s 0 h

theorem not_mem_replaceAll_single {c : Nat} {repl : JStr} (hc : c ∉ repl) :
    ∀ (s : JStr) (k : Nat), c ∉ replaceAllGo [c] repl s k := by
  intro s
  induction s with
  | nil => intro k h; cases h
  | cons b rest ih =>
    intro k h
    match k with
    | k' + 1 =>
      rw [replaceAllGo] at h
      exact ih k' h
    | 0 =>
      rw [replaceAllGo] at h
      by_cases hp : isPrefixOfJ [c] (b :: rest) ∧ ([c] : JStr) ≠ []
      · rw [if_pos hp] at h
        rcases List.mem_append.mp h with h1 | h1
        · exact hc h1
        · exact ih _ h1
      · rw [if_neg hp] at h
        rcases List.mem_cons.mp h with h1 | h1
        · subst h1
          apply hp
          refine ⟨?_, by simp⟩
          rw [isPrefixOfJ]
          simp [isPrefixOfJ]
        · exact ih _ h1

/-- Escaping leaves no raw `<`, `>` or `"` in the output, so a value written
through `escapeHtmlAttr` can neither break out of a quoted attribute nor
open a tag. -/
theorem escapeHtmlAttr_no_specials (s : JStr) :
    60 ∉ escapeHtmlAttr s ∧ 62 ∉ escapeHtmlAttr s ∧ 34 ∉ escapeHtmlAttr s := by
  unfold escapeHtmlAttr
  rw [show jstr ">" = [62] from rfl, show jstr "<" = [60] from rfl,
    show jstr "\"" = [34] from rfl]
  refine ⟨?_, ?_, ?_⟩
  · intro h
    rcases mem_replaceAll h with h1 | h1
    · revert h1; decide
    · exact not_mem_replaceAll_single (by decide) _ 0 h1
  · exact fun h => not_mem_replaceAll_single (by decide) _ 0 h
  · intro h
    rcases mem_replaceAll h with h1 | h1
    · revert h1; decide
    · rcases mem_replaceAll h1 with h2 | h2
      · revert h2; decide
      · exact not_mem_replaceAll_single (by decide) _ 0 h2

/-- C3 counterexample: the `seo-worker.js` implementation interpolates the
payload title into its HTML template with no escaping, so a movie name of
`<script>alert(1)</script>` yields a parseable `<script>` tag in its output
document (while `escapeHtmlAttr` in the Pages middleware does escape it). -/
theorem C3_counterexample :
    containsSub
      (workerHtml (some (jstr "<script>alert(1)</script>")) none
        (jstr "https://animelol.example/phim/one-piece") (jstr "one-piece"))
      (jstr "<script>") = true ∧
    containsSub (escapeHtmlAttr (jstr "<script>alert(1)</script>"))
      (jstr "<script>") = false := by
  refine ⟨by decide, by decide⟩

/-- C3 (amended): in the Pages middleware every payload-derived string
written through `escapeHtmlAttr` is attribute-escaped — its output contains
no raw `<`, `>` or `"`, so it cannot produce a `<script>` tag; the
`seo-worker.js` implementation however writes the payload fields into its
template unescaped, and a movie name containing `<script>alert(1)</script>`
does produce a parseable `<script>` tag in that worker's output document. -/
theorem C3_escaping_amended :
    (∀ s : JStr, 60 ∉ escapeHtmlAttr s ∧ 62 ∉ escapeHtmlAttr s ∧
      34 ∉ escapeHtmlAttr s) ∧
    containsSub
      (workerHtml (some (jstr "<script>alert(1)</script>")) none
        (jstr "https://animelol.example/phim/one-piece") (jstr "one-piece"))
      (jstr "<script>") = true :=
  ⟨escapeHtmlAttr_no_specials, by decide⟩

theorem replaceAllCIGo_of_not_contains (pat repl : JStr) :
    ∀ s : JStr, ciContains s pat = false → ∀ done : JStr,
      replaceAllCIGo pat repl s 0 done = s := by
  intro s
  induction s with
  | nil => intro _ done; rfl
  | cons c rest ih =>
    intro h done
    rw [ciContains] at h
    rcases Bool.or_eq_false_iff.mp h with ⟨h1, h2⟩
    rw [replaceAllCIGo]
    rw [if_neg (fun hc => by rw [hc.1] at h1; cases h1)]
    rw [ih h2]

theorem replaceAllCI_of_not_contains (pat repl s : JStr)
    (h : ciContains s pat = false) : replaceAllCI pat repl s = s :=
  replaceAllCIGo_of_not_contains pat repl s h []

theorem expandSubst_of_no_dollar (matched before after : JStr) :
    ∀ l : JStr, (36 : Nat) ∉ l → expandSubst matched before after l = l := by
  intro l
  induction l with
  | nil => intro _; rfl
  | cons c rest ih =>
    intro h
    have hc : c ≠ 36 := fun he => h (he ▸ List.mem_cons_self _ _)
    have hr : (36 : Nat) ∉ rest := fun hm => h (List.mem_cons_of_mem _ hm)
    cases rest with
    | nil => rfl
    | cons d rest2 =>
      rw [expandSubst, if_neg hc, ih hr]

/-- The default `Vars`: every token has no value. -/
def vnone : Vars := {}

/-- A template holding all fourteen tokens the spec lists. -/
def allTokensTemplate : JStr :=
  jstr "%sitename%%phim%%phimgoc%%theloai%%quocgia%%nam%%tag%%dienvien%%daodien%%tap%%chatluong%%ngonngu%%noidung%%thumb%"

/-- The twelve-token template, without `%tag%` and `%thumb%`. -/
def edgeTokensTemplate : JStr :=
  jstr "%sitename%%phim%%phimgoc%%theloai%%quocgia%%nam%%dienvien%%daodien%%tap%%chatluong%%ngonngu%%noidung%"

theorem C4_client_thumb (v : Vars) (t : JStr) (h : v.thumb = some t)
    (hd : (36 : Nat) ∉ t) :
    replaceSeoVariables_client (some (jstr "%ThUmB%")) v = jsTrim (collapseWs t) := by
  simp only [replaceSeoVariables_client]
  rw [if_neg (show ¬(jsGetD (some (jstr "%ThUmB%")) = []) from by decide)]
  rw [show jsGetD (some (jstr "%ThUmB%")) = jstr "%ThUmB%" from rfl]
  rw [replaceAllCI_of_not_contains (jstr "%sitename%") (jsGetD v.sitename) (jstr "%ThUmB%") (by decide)]
  rw [replaceAllCI_of_not_contains (jstr "%phim%") (jsGetD v.phim) (jstr "%ThUmB%") (by decide)]
  rw [replaceAllCI_of_not_contains (jstr "%phimgoc%") (jsGetD v.phimgoc) (jstr "%ThUmB%") (by decide)]
  rw [replaceAllCI_of_not_contains (jstr "%theloai%") (jsGetD v.theloai) (jstr "%ThUmB%") (by decide)]
  rw [replaceAllCI_of_not_contains (jstr "%quocgia%") (jsGetD v.quocgia) (jstr "%ThUmB%") (by decide)]
  rw [replaceAllCI_of_not_contains (jstr "%nam%") (jsGetD v.nam) (jstr "%ThUmB%") (by decide)]
  rw [replaceAllCI_of_not_contains (jstr "%tag%") (jsGetD v.tag) (jstr "%ThUmB%") (by decide)]
  rw [replaceAllCI_of_not_contains (jstr "%dienvien%") (jsGetD v.dienvien) (jstr "%ThUmB%") (by decide)]
  rw [replaceAllCI_of_not_contains (jstr "%daodien%") (jsGetD v.daodien) (jstr "%ThUmB%") (by decide)]
  rw [replaceAllCI_of_not_contains (jstr "%tap%") (jsGetD v.tap) (jstr "%ThUmB%") (by decide)]
  rw [replaceAllCI_of_not_contains (jstr "%chatluong%") (jsGetD v.chatluong) (jstr "%ThUmB%") (by decide)]
  rw [replaceAllCI_of_not_contains (jstr "%ngonngu%") (jsGetD v.ngonngu) (jstr "%ThUmB%") (by decide)]
  rw [replaceAllCI_of_not_contains (jstr "%noidung%")
    (if jsGetD v.noidung = [] then [] else stripHtml_client (jsGetD v.noidung))
    (jstr "%ThUmB%") (by decide)]
  rw [h]
  rw [show (jsGetD (some t)) = t from rfl]
  rw [show replaceAllCI (jstr "%thumb%") t (jstr "%ThUmB%") =
    expandSubst (jstr "%ThUmB%") [] [] t ++ [] from rfl]
  rw [List.append_nil]
  rw [expandSubst_of_no_dollar (jstr "%ThUmB%") [] [] t hd]

theorem C4_edge_thumb (v : Vars) :
    replaceSeoVariables_edge (some (jstr "%ThUmB%")) v = jstr "%ThUmB%" := by
  simp only [replaceSeoVariables_edge]
  rw [if_neg (show ¬(jsGetD (some (jstr "%ThUmB%")) = []) from by decide)]
  rw [show jsGetD (some (jstr "%ThUmB%")) = jstr "%ThUmB%" from rfl]
  rw [replaceAllCI_of_not_contains (jstr "%sitename%") (jsGetD v.sitename) (jstr "%ThUmB%") (by decide)]
  rw [replaceAllCI_of_not_contains (jstr "%phim%") (jsGetD v.phim) (jstr "%ThUmB%") (by decide)]
  rw [replaceAllCI_of_not_contains (jstr "%phimgoc%") (jsGetD v.phimgoc) (jstr "%ThUmB%") (by decide)]
  rw [replaceAllCI_of_not_contains (jstr "%theloai%") (jsGetD v.theloai) (jstr "%ThUmB%") (by decide)]
  rw [replaceAllCI_of_not_contains (jstr "%quocgia%") (jsGetD v.quocgia) (jstr "%ThUmB%") (by decide)]
  rw [replaceAllCI_of_not_contains (jstr "%nam%") (jsGetD v.nam) (jstr "%ThUmB%") (by decide)]
  rw [replaceAllCI_of_not_contains (jstr "%tap%") (jsGetD v.tap) (jstr "%ThUmB%") (by decide)]
  rw [replaceAllCI_of_not_contains (jstr "%chatluong%") (jsGetD v.chatluong) (jstr "%ThUmB%") (by decide)]
  rw [replaceAllCI_of_not_contains (jstr "%ngonngu%") (jsGetD v.ngonngu) (jstr "%ThUmB%") (by decide)]
  rw [replaceAllCI_of_not_contains (jstr "%noidung%")
    (stripHtml_edge (jsGetD v.noidung)) (jstr "%ThUmB%") (by decide)]
  rw [replaceAllCI_of_not_contains (jstr "%dienvien%") (jsGetD v.dienvien) (jstr "%ThUmB%") (by decide)]
  rw [replaceAllCI_of_not_contains (jstr "%daodien%") (jsGetD v.daodien) (jstr "%ThUmB%") (by decide)]
  decide

/-- C4 counterexample: the edge `replaceSeoVariables` has no pass for
`%tag%` (nor `%thumb%`): with no value for `tag` the claim requires the
empty string, but the edge implementation leaves the literal token text,
while the client implementation does produce the empty string. -/
theorem C4_counterexample :
    replaceSeoVariables_edge (some (jstr "%tag%")) vnone = jstr "%tag%" ∧
    replaceSeoVariables_client (some (jstr "%tag%")) vnone = [] ∧
    jstr "%tag%" ≠ [] := by
  refine ⟨by decide, by decide, by decide⟩

/-- C4 (amended): the client `replaceSeoVariables` replaces all fourteen
recognized tokens case-insensitively, substituting the empty string for a
token with no value, then collapses whitespace and trims; a value is
inserted through the dollar escapes of `String.prototype.replace`
(GetSubstitution), so a value free of `$` (code unit 36) is substituted
verbatim, while for instance the value `$&` re-inserts the matched token
text itself.  The edge `replaceSeoVariables` handles only twelve tokens —
it has no `%tag%` and no `%thumb%` pass, and leaves those two tokens as
literal text for every variable mapping. -/
theorem C4_substitution_amended :
    (∀ (v : Vars) (t : JStr), v.thumb = some t → (36 : Nat) ∉ t →
      replaceSeoVariables_client (some (jstr "%ThUmB%")) v = jsTrim (collapseWs t)) ∧
    (∀ v : Vars, replaceSeoVariables_edge (some (jstr "%ThUmB%")) v = jstr "%ThUmB%") ∧
    replaceSeoVariables_client (some (jstr "%ThUmB%"))
      { vnone with thumb := some (jstr "$&") } = jstr "%ThUmB%" ∧
    replaceSeoVariables_client (some allTokensTemplate) vnone = [] ∧
    replaceSeoVariables_edge (some edgeTokensTemplate) vnone = [] :=
  ⟨C4_client_thumb, C4_edge_thumb, by decide, by decide, by decide⟩

/-- C4 witness: the amended substitution theorem at a concrete mapping with
a dollar-free value. -/
theorem C4_substitution_witness :
    replaceSeoVariables_client (some (jstr "%ThUmB%"))
      { vnone with thumb := some (jstr "poster.jpg") } =
      jsTrim (collapseWs (jstr "poster.jpg")) :=
  C4_substitution_amended.1 _ (jstr "poster.jpg") rfl (by decide)

/-- A request carrying a generic desktop-browser User-Agent. -/
def chromeReq : Req :=
  { method := jstr "GET"
    ua := some (jstr "Mozilla/5.0 (Windows NT 10.0; Win64; x64) AppleWebKit/537.36 (KHTML, like Gecko) Chrome/120.0.0.0 Safari/537.36") }

/-- A request with no User-Agent but a `purpose: prefetch` header. -/
def prefetchReq : Req :=
  { method := jstr "GET", ua := none, purpose := some (jstr "prefetch") }

/-- A crawler request with a mixed-casing signature. -/
def googleReq : Req :=
  { method := jstr "GET"
    ua := some (jstr "Mozilla/5.0 (compatible; GoogleBot/2.1; +http://www.google.com/bot.html)") }

/-- C6 counterexample: a request with a missing User-Agent is still
classified as a bot when a `purpose: prefetch` header is present, because
`isLikelyBot` falls through to the prefetch heuristic — the claim requires
`false` for every empty/missing-UA request regardless of other headers. -/
theorem C6_counterexample :
    prefetchReq.ua = none ∧ isLikelyBot prefetchReq = true := by
  refine ⟨rfl, by decide⟩

/-- C6 (amended): a User-Agent containing a known crawler signature under
any casing is classified as a bot; the generic Chrome/120 browser UA is
not; and an empty or missing User-Agent is not a bot *unless* the `purpose`
or `sec-purpose` header matches `prefetch` case-insensitively, in which
case `isLikelyBot` returns true. -/
theorem C6_isBot_amended :
    (∀ r : Req, botSignatures.any (fun sig => ciContains (jsGetD r.ua) sig) = true →
      isLikelyBot r = true) ∧
    isLikelyBot chromeReq = false ∧
    (∀ r : Req, jsGetD r.ua = [] →
      ciContains (jsOrStr (jsGetD r.purpose) (jsGetD r.secPurpose))
        (jstr "prefetch") = false →
      isLikelyBot r = false) := by
  refine ⟨?_, by decide, ?_⟩
  · intro r h
    simp only [isLikelyBot, h]
    rfl
  · intro r h1 h2
    simp only [isLikelyBot, h1, h2]
    decide

/-- C6 witness: the amended classification at concrete requests. -/
theorem C6_isBot_witness : isLikelyBot googleReq = true :=
  C6_isBot_amended.1 googleReq (by decide)

theorem assetExts_units :
    assetExts =
      [[46,106,115],[46,99,115,115],[46,112,110,103],[46,106,112,103],
       [46,106,112,101,103],[46,119,101,98,112],[46,103,105,102],
       [46,115,118,103],[46,105,99,111],[46,119,111,102,102],
       [46,119,111,102,102,50],[46,116,116,102],[46,101,111,116],
       [46,109,97,112],[46,106,115,111,110],[46,116,120,116],
       [46,120,109,108]] := by decide

theorem isAssetPath_concat_slash (l : JStr) : isAssetPath (l ++ [47]) = false := by
  unfold isAssetPath
  have hm : (l ++ [47]).map toLowerN = l.map toLowerN ++ [47] := by
    rw [List.map_append]; rfl
  rw [hm, assetExts_units]
  simp only [List.any_cons, List.any_nil, endsWithJ, List.reverse_append,
    List.reverse_cons, List.reverse_nil, List.nil_append, List.cons_append,
    List.append_nil, isPrefixOfJ]
  simp

theorem matchMovie_slug (slug : JStr) (h1 : slug ≠ [])
    (h2 : slug.all (fun c => decide (c ≠ 47)) = true) :
    matchMovie (jstr "/phim/" ++ slug) = some slug := by
  simp only [matchMovie]
  have ht : (jstr "/phim/" ++ slug).take 6 = jstr "/phim/" := by
    rw [show (6 : Nat) = (jstr "/phim/").length from rfl]
    exact List.take_left _ _
  have hd : (jstr "/phim/" ++ slug).drop 6 = slug := by
    rw [show (6 : Nat) = (jstr "/phim/").length from rfl]
    exact List.drop_left _ _
  rw [ht, hd]
  rw [if_pos (show (jstr "/phim/").map toLowerN = jstr "/phim/" from by decide)]
  have hlast : ¬ slug.getLast? = some 47 := by
    intro hc
    have hmem : (47 : Nat) ∈ slug := List.mem_of_mem_getLast? hc
    rcases List.all_eq_true.mp h2 _ hmem with h
    exact (of_decide_eq_true h) rfl
  rw [if_neg hlast]
  rw [if_pos ⟨h1, h2⟩]

theorem matchMovie_slug_slash (slug : JStr) (h1 : slug ≠ [])
    (h2 : slug.all (fun c => decide (c ≠ 47)) = true) :
    matchMovie (jstr "/phim/" ++ slug ++ [47]) = some slug := by
  simp only [matchMovie]
  rw [List.append_assoc]
  have ht : (jstr "/phim/" ++ (slug ++ [47])).take 6 = jstr "/phim/" := by
    rw [show (6 : Nat) = (jstr "/phim/").length from rfl]
    exact List.take_left _ _
  have hd : (jstr "/phim/" ++ (slug ++ [47])).drop 6 = slug ++ [47] := by
    rw [show (6 : Nat) = (jstr "/phim/").length from rfl]
    exact List.drop_left _ _
  rw [ht, hd]
  rw [if_pos (show (jstr "/phim/").map toLowerN = jstr "/phim/" from by decide)]
  rw [if_pos (List.getLast?_concat slug)]
  rw [List.dropLast_concat]
  rw [if_pos ⟨h1, h2⟩]

theorem take6_append_phim (slug : JStr) :
    (jstr "/phim/" ++ slug).take 6 = jstr "/phim/" := by
  rw [show (6 : Nat) = (jstr "/phim/").length from rfl]
  exact List.take_left _ _

theorem phim_path_ne_root (slug : JStr) : jstr "/phim/" ++ slug ≠ jstr "/" := by
  intro he
  have h := congrArg (List.take 6) he
  rw [take6_append_phim] at h
  revert h; decide

theorem phim_path_ne_index (slug : JStr) :
    jstr "/phim/" ++ slug ≠ jstr "/index.html" := by
  intro he
  have h := congrArg (List.take 6) he
  rw [take6_append_phim] at h
  revert h; decide

theorem classify_movie_slug (slug : JStr) (h1 : slug ≠ [])
    (h2 : slug.all (fun c => decide (c ≠ 47)) = true)
    (h3 : isAssetPath (jstr "/phim/" ++ slug) = false) :
    classify (jstr "/phim/" ++ slug) = RouteClass.movieDetail slug ∧
    classify (jstr "/phim/" ++ slug ++ jstr "/") = RouteClass.movieDetail slug := by
  constructor
  · unfold classify
    rw [if_neg (show ¬(isAssetPath (jstr "/phim/" ++ slug) = true) from by rw [h3]; simp)]
    rw [if_neg (show ¬(jstr "/phim/" ++ slug = jstr "/" ∨
      jstr "/phim/" ++ slug = jstr "/index.html") from by
        rintro (hc | hc)
        · exact phim_path_ne_root slug hc
        · exact phim_path_ne_index slug hc)]
    rw [matchMovie_slug slug h1 h2]
  · unfold classify
    have h4 : isAssetPath (jstr "/phim/" ++ slug ++ jstr "/") = false :=
      isAssetPath_concat_slash _
    rw [if_neg (show ¬(isAssetPath (jstr "/phim/" ++ slug ++ jstr "/") = true) from by
      rw [h4]; simp)]
    rw [if_neg (show ¬(jstr "/phim/" ++ slug ++ jstr "/" = jstr "/" ∨
      jstr "/phim/" ++ slug ++ jstr "/" = jstr "/index.html") from by
        rw [List.append_assoc]
        rintro (hc | hc)
        · exact phim_path_ne_root (slug ++ jstr "/") hc
        · exact phim_path_ne_index (slug ++ jstr "/") hc)]
    rw [show (jstr "/") = ([47] : JStr) from rfl]
    rw [matchMovie_slug_slash slug h1 h2]

/-- C7: route classification is a total function (`classify` never throws
by construction): `/` and `/index.html` are Homepage; the movie regex
matches `/phim/slug` with a case-insensitive prefix and an optional
trailing slash, both yielding the same slug; any path with a static-asset
extension is Unhandled and — together with the GET/HTML gates — makes
`onRequest` pass straight through to the origin without a cache lookup or
resolver call. -/
theorem C7_classify :
    classify (jstr "/") = RouteClass.homepage ∧
    classify (jstr "/index.html") = RouteClass.homepage ∧
    classify (jstr "/PHIM/One-Piece") = RouteClass.movieDetail (jstr "One-Piece") ∧
    (∀ p : JStr, isAssetPath p = true → classify p = RouteClass.unhandled) ∧
    (∀ slug : JStr, slug ≠ [] → slug.all (fun c => decide (c ≠ 47)) = true →
      isAssetPath (jstr "/phim/" ++ slug) = false →
      classify (jstr "/phim/" ++ slug) = RouteClass.movieDetail slug ∧
      classify (jstr "/phim/" ++ slug ++ jstr "/") = RouteClass.movieDetail slug) ∧
    (∀ (req : Req) (w : World),
      (req.method = jstr "GET" ∨ req.method = jstr "HEAD") →
      isHtmlRequest req = true → isAssetPath req.path = true →
      onRequest req w = .ok (w.originResp, [Eff.next])) := by
  refine ⟨by decide, by decide, by decide, ?_, classify_movie_slug, ?_⟩
  · intro p hp
    unfold classify
    rw [if_pos hp]
  · intro req w hm hh ha
    unfold onRequest
    rw [if_neg (fun hc => hc hm)]
    rw [if_neg (fun hc => hc hh)]
    rw [if_pos ha]

/-- C7 witness: the classification theorem applied at a concrete slug and a
concrete asset request. -/
theorem C7_classify_witness :
    classify (jstr "/phim/one-piece") = RouteClass.movieDetail (jstr "one-piece") :=
  (C7_classify.2.2.2.2.1 (jstr "one-piece") (by decide) (by decide) (by decide)).1

/-- C9: for every origin response whose `Content-Type` does not contain
`text/html`, `buildSeoResponse` returns the origin response unchanged —
same body, same headers, no transformation applied. -/
theorem C9_rewrite_frame (f : SeoPayload → JStr → JStr) (origin : Resp)
    (seo : SeoPayload)
    (h : containsSub (jsGetD origin.contentType) (jstr "text/html") = false) :
    buildSeoResponse f origin seo = origin := by
  unfold buildSeoResponse
  rw [if_pos h]

/-- A JSON origin response. -/
def jsonResp : Resp :=
  { contentType := some (jstr "application/json"), body := jstr "[1,2]" }

/-- C9 witness: the frame property at a concrete JSON response. -/
theorem C9_rewrite_witness :
    buildSeoResponse (fun _ b => b ++ b) jsonResp
      { title := jstr "t", description := jstr "d", keywords := [] } = jsonResp :=
  C9_rewrite_frame _ _ _ (by decide)

/-- C10: a request that is not GET/HEAD, or whose Accept header does not
contain `text/html`, is passed straight to the origin: `onRequest` performs
only the `context.next()` call — no cache lookup, no resolution, no
rewrite — whatever the User-Agent is. -/
theorem C10_gating (req : Req) (w : World)
    (h : ¬(req.method = jstr "GET" ∨ req.method = jstr "HEAD") ∨
      containsSub (jsGetD req.accept) (jstr "text/html") = false) :
    onRequest req w = Except.ok (w.originResp, [Eff.next]) := by
  unfold onRequest
  rcases h with h | h
  · rw [if_pos h]
  · by_cases hm : req.method = jstr "GET" ∨ req.method = jstr "HEAD"
    · rw [if_neg (fun hc => hc hm)]
      rw [if_pos (show ¬(isHtmlRequest req = true) from by
        unfold isHtmlRequest
        rw [h]
        simp)]
    · rw [if_pos hm]

/-- The origin page used in the concrete middleware scenarios. -/
def htmlOrigin : Resp :=
  { contentType := some (jstr "text/html; charset=utf-8")
    body := jstr "<html><head><title>app</title></head></html>" }

/-- A POST request from a crawler UA. -/
def postReq : Req :=
  { method := jstr "POST", accept := some (jstr "text/html")
    ua := some (jstr "Googlebot/2.1"), path := jstr "/phim/one-piece" }

/-- C10 witness: the gating theorem at a concrete POST request. -/
theorem C10_gating_witness :
    onRequest postReq { originResp := htmlOrigin } =
      Except.ok (htmlOrigin, [Eff.next]) :=
  C10_gating postReq { originResp := htmlOrigin } (Or.inl (by decide))

/-- A bot GET for a movie page, HTML accepted. -/
def c1Req : Req :=
  { method := jstr "GET", accept := some (jstr "text/html")
    ua := some (jstr "Googlebot/2.1"), path := jstr "/phim/one-piece"
    origin := jstr "https://animelol.example" }

/-- A world where the Supabase env is configured but the fetch to the
`seo-prerender` function rejects (network failure / timeout). -/
def c1World : World :=
  { originResp := htmlOrigin
    cachePresent := false
    envUrl := some (jstr "https://sb.example")
    envKey := some (jstr "anon-key")
    movieSeo := .reject }

/-- C1: the failing input evaluated.  A rejected fetch inside `getMovieSeo`
propagates out of `routeToSeo` and out of `onRequest` — there is no
try/catch anywhere on that path — so the middleware does *not* return the
origin response: it surfaces the rejection (the runtime turns it into an
error response), contradicting the degrade-to-passthrough requirement. -/
theorem C1_reject_propagates :
    onRequest c1Req c1World = Except.error () ∧
    routeToSeo c1Req.path c1Req.origin c1World = Except.error () ∧
    getMovieSeo (jstr "one-piece") c1Req.origin c1World = Except.error () := by
  refine ⟨rfl, rfl, rfl⟩

/-- The same bot GET aimed at an unhandled path. -/
def c2Req : Req :=
  { method := jstr "GET", accept := some (jstr "text/html")
    ua := some (jstr "Googlebot/2.1"), path := jstr "/about"
    origin := jstr "https://animelol.example" }

/-- A world with the edge cache available and empty. -/
def c2World : World :=
  { originResp := htmlOrigin
    cachePresent := true
    cached := none
    envUrl := some (jstr "https://sb.example")
    envKey := some (jstr "anon-key") }

/-- C2 counterexample: on a bot request whose resolver returns null
(passthrough), `onRequest` still writes the passthrough origin response to
the cache (`cache.put(cacheKey, passthrough.clone())`), so the cache does
not only hold `buildSeoResponse` outputs. -/
theorem C2_counterexample :
    routeToSeo c2Req.path c2Req.origin c2World = Except.ok none ∧
    onRequest c2Req c2World =
      Except.ok (c2World.originResp,
        [Eff.cacheLookup, Eff.resolve, Eff.next,
         Eff.cachePut c2World.originResp]) := by
  refine ⟨rfl, rfl⟩

/-- C2 (amended): on a cache miss with the cache available, `onRequest`
writes whatever response it returns — the rewritten response *or* the
passthrough origin response — to the cache; a request stopped by one of the
method/Accept/asset/bot gates performs only `context.next()`. -/
theorem C2_cache_amended (req : Req) (w : World) (r : Resp) (acts : List Eff)
    (hcp : w.cachePresent = true) (hc : w.cached = none)
    (h : onRequest req w = Except.ok (r, acts)) :
    acts = [Eff.next] ∨ Eff.cachePut r ∈ acts := by
  unfold onRequest at h
  split_ifs at h
  all_goals try (simp only [Except.ok.injEq, Prod.mk.injEq] at h; exact Or.inl h.2.symm)
  · rw [hcp, hc] at h
    change onRequestAfterCache req w [Eff.cacheLookup] true = Except.ok (r, acts) at h
    unfold onRequestAfterCache at h
    cases hr : routeToSeo req.path req.origin w with
    | error e => rw [hr] at h; cases h
    | ok o =>
      rw [hr] at h
      cases o with
      | none =>
        simp only [if_true, Except.ok.injEq, Prod.mk.injEq] at h
        rcases h with ⟨h1, h2⟩
        right
        rw [← h2, ← h1]
        simp
      | some seo =>
        simp only [if_true, Except.ok.injEq, Prod.mk.injEq] at h
        rcases h with ⟨h1, h2⟩
        right
        rw [← h2, ← h1]
        simp

/-- C2 witness: the amended cache behaviour at the concrete passthrough
scenario. -/
theorem C2_cache_witness :
    ([Eff.cacheLookup, Eff.resolve, Eff.next, Eff.cachePut c2World.originResp]
        = [Eff.next]) ∨
      Eff.cachePut c2World.originResp ∈
        [Eff.cacheLookup, Eff.resolve, Eff.next,
         Eff.cachePut c2World.originResp] :=
  C2_cache_amended c2Req c2World c2World.originResp _ rfl rfl rfl
